import Mathlib

set_option linter.unusedVariables false

/-!
The expat bridge of `parser/parser.c`.

A shallow embedding of `src/parser/parser.c`: the single global slot `PI`, the
counter `lastId`, the four tokenizer callbacks that copy their payload and call
the Go handlers, and the exported operations `Create`, `Feed`, `GetError`,
the position queries, `SetHandlers` and `Free`.

The expat library itself is not part of the repository; it enters as a
parameter (`Expat σ`, a record of the library functions the file calls, over an
arbitrary library state `σ`). Every call the bridge makes into the library is
also appended to a trace, so that statements about *which* handle a chunk is
handed to, and with which arguments, are statements about the trace.

Heap blocks carry their capacity, their cells (a cell that was never written
is `none`) and the list of writes that fell outside the block.
-/

namespace ExpatBridge

/-! ## Characters, C strings and heap blocks -/

/-- A character. The file applies `strlen` and `strcpy` to `XML_Char *`, so
`XML_Char` is `char` and `sizeof(XML_Char)` is 1. The value 0 is the
terminator. -/
abbrev XML_Char := Nat

/-- The value of `sizeof(XML_Char)`. -/
def sizeof_XML_Char : Nat := 1

/-- A block returned by `malloc`: `cap` cells, each `none` until written, and
the writes that landed at an index `≥ cap` (outside the block), in order. -/
structure Block where
  cap : Nat
  cells : List (Option XML_Char)
  spill : List (Nat × XML_Char)
deriving DecidableEq, Repr

/-- The call `malloc(n)` for a block of `n` characters. Its cells are
indeterminate. Allocation failure is not modelled (the file never tests the
result of `malloc`). -/
def malloc (n : Nat) : Block :=
  { cap := n, cells := List.replicate n none, spill := [] }

/-- The assignment `dst[i] = c`. An index outside the block is recorded in
`spill`. -/
def Block.store (dst : Block) (i : Nat) (c : XML_Char) : Block :=
  if i < dst.cap then { dst with cells := dst.cells.set i (some c) }
  else { dst with spill := dst.spill ++ [(i, c)] }

/-- A block of capacity `cap` whose first cells hold `pre`, whose other cells
were never written, and with the outside writes `sp`. -/
def Block.filled (cap : Nat) (pre : List XML_Char) (sp : List (Nat × XML_Char)) : Block :=
  { cap := cap, cells := pre.map some ++ List.replicate (cap - pre.length) none, spill := sp }

/-- The call `strlen(src)`: the number of characters before the first 0. `src`
is the memory readable from the pointer on; the scan stops at its end. -/
def strlen : List XML_Char → Nat
  | [] => 0
  | c :: rest => if c = 0 then 0 else strlen rest + 1

/-- The loop of `strcpy`, writing from index `i` on: every character up to and
including the first 0 of the source is stored. -/
def strcpyFrom (dst : Block) (i : Nat) : List XML_Char → Block
  | [] => dst
  | c :: rest => if c = 0 then dst.store i 0 else strcpyFrom (dst.store i c) (i + 1) rest

/-- The call `strcpy(dst, src)`. -/
def strcpy (dst : Block) (src : List XML_Char) : Block :=
  strcpyFrom dst 0 src

/-- A cell of an array of `XML_Char *`: never written, `NULL`, or a pointer to
a block. -/
inductive PtrCell where
  | indeterminate
  | null
  | ptr (b : Block)
deriving DecidableEq, Repr

/-! ## The slot and the calls to the Go side -/

/-- A tokenizer handle; `none` is `NULL`. -/
abbrev XML_Parser := Option Nat

/-- The `struct parserInstance`. The handler fields are `none` while
indeterminate: `Create` copies a local whose handler fields were never
assigned. -/
structure ParserInstance where
  id : Int
  parser : XML_Parser
  start_handler : Option Int
  end_handler : Option Int
deriving DecidableEq, Repr

/-- A call from the bridge to one of the exported Go handlers, with the
arguments it is given. -/
inductive GoCall where
  | GStartElementHandler (id : Int) (tag : Block) (attribcpy : List PtrCell)
  | GEndElementHandler (id : Int) (tag : Block)
  | GCharDataHandler (id : Int) (text : Block) (len : Nat)
  | GDefaultHandler (id : Int) (text : Block) (len : Nat)
deriving DecidableEq, Repr

/-- The instance id a Go handler call carries (its first argument). -/
def GoCall.id : GoCall → Int
  | .GStartElementHandler id _ _ => id
  | .GEndElementHandler id _ => id
  | .GCharDataHandler id _ _ => id
  | .GDefaultHandler id _ _ => id

/-! ## The four callbacks -/

/-- The counting loop `for (i = 0; attr[i]; i++) count++;` over an array of
string pointers (`none` is `NULL`). -/
def countAttrs : List (Option (List XML_Char)) → Nat
  | some _ :: rest => countAttrs rest + 1
  | _ => 0

/-- One iteration of the copy loop: `malloc(strlen(attr[i]) * sizeof(XML_Char))`
followed by `strcpy`. The `none` case is not reached, `i < count` makes
`attr[i]` non-`NULL`. -/
def copyAttr : Option (List XML_Char) → PtrCell
  | some s => .ptr (strcpy (malloc (strlen s * sizeof_XML_Char)) s)
  | none => .indeterminate

/-- The copy loop `for (i = 0; i < count; i++)` over
`attribcpy = malloc((count+1) * sizeof(XML_Char*))`. -/
def copyAttrs (attr : List (Option (List XML_Char))) (count : Nat) : List PtrCell :=
  (List.range count).foldl (fun arr i => arr.set i (copyAttr (attr.getD i none)))
    (List.replicate (count + 1) PtrCell.indeterminate)

/-- The callback `_handle_start_`: copies the element name and the attribute
array and calls `GStartElementHandler(PI.id, tag, attribcpy)`. -/
def _handle_start_ (PI : ParserInstance) (el : List XML_Char)
    (attr : List (Option (List XML_Char))) : GoCall :=
  let tag := strcpy (malloc ((strlen el + 1) * sizeof_XML_Char)) el
  let count := countAttrs attr
  .GStartElementHandler PI.id tag (copyAttrs attr count)

/-- The callback `_handle_end_`. -/
def _handle_end_ (PI : ParserInstance) (el : List XML_Char) : GoCall :=
  let tag := strcpy (malloc (strlen el + 1)) el
  .GEndElementHandler PI.id tag

/-- The callback `_handle_char_data_`: `malloc(len)`, `strcpy(text, s)`, then
`GCharDataHandler(PI.id, text, len)`. `s` is the memory readable from the
span's first byte on. -/
def _handle_char_data_ (PI : ParserInstance) (s : List XML_Char) (len : Nat) : GoCall :=
  let text := strcpy (malloc (len * sizeof_XML_Char)) s
  .GCharDataHandler PI.id text len

/-- The callback `_handle_default_`. -/
def _handle_default_ (PI : ParserInstance) (s : List XML_Char) (len : Nat) : GoCall :=
  let text := strcpy (malloc (len * sizeof_XML_Char)) s
  .GDefaultHandler PI.id text len

/-! ## The expat library as a parameter -/

/-- The `enum XML_Status` that `XML_Parse` returns. -/
inductive XML_Status where
  | XML_STATUS_ERROR
  | XML_STATUS_OK
  | XML_STATUS_SUSPENDED
deriving DecidableEq, Repr

/-- A callback the tokenizer invokes during `XML_Parse`, with the arguments
expat gives it: a terminated element name, a `NULL`-terminated attribute
array, or a span with its reported length (expat reports no negative length,
so `len` is a natural number). Strings and spans are given as the memory
readable from the pointer on. -/
inductive Callback where
  | startElement (el : List XML_Char) (attr : List (Option (List XML_Char)))
  | endElement (el : List XML_Char)
  | characterData (s : List XML_Char) (len : Nat)
  | defaultData (s : List XML_Char) (len : Nat)
deriving DecidableEq, Repr

/-- What one `XML_Parse` call does: the library state afterwards, the callbacks
it invoked in order, and the status it returned. -/
structure ParseResult (σ : Type) where
  lib : σ
  fired : List Callback
  status : XML_Status

/-- The functions of expat that `parser.c` calls, over a library state `σ`.
An encoding argument is `none` for `NULL`. -/
structure Expat (σ : Type) where
  XML_ParserCreate : σ → Option (List XML_Char) → σ × XML_Parser
  XML_ParserCreateNS : σ → Option (List XML_Char) → XML_Char → σ × XML_Parser
  XML_SetElementHandler : σ → XML_Parser → σ
  XML_SetCharacterDataHandler : σ → XML_Parser → σ
  XML_SetDefaultHandler : σ → XML_Parser → σ
  XML_Parse : σ → XML_Parser → List XML_Char → Int → Int → ParseResult σ
  XML_GetErrorCode : σ → XML_Parser → Int
  XML_ErrorString : Int → Option (List XML_Char)
  XML_GetCurrentLineNumber : σ → XML_Parser → Nat
  XML_GetCurrentColumnNumber : σ → XML_Parser → Nat
  XML_GetSpecifiedAttributeCount : σ → XML_Parser → Int
  XML_ParserFree : σ → XML_Parser → σ

/-- A call of the bridge into the library that changes or creates a tokenizer,
with its arguments. -/
inductive ExpatCall where
  | XML_ParserCreate (encoding : Option (List XML_Char))
  | XML_ParserCreateNS (encoding : Option (List XML_Char)) (sep : XML_Char)
  | XML_SetElementHandler (p : XML_Parser)
  | XML_SetCharacterDataHandler (p : XML_Parser)
  | XML_SetDefaultHandler (p : XML_Parser)
  | XML_Parse (p : XML_Parser) (chunk : List XML_Char) (len : Int) (isFinal : Int)
  | XML_ParserFree (p : XML_Parser)
deriving DecidableEq, Repr

/-! ## The process state and the exported operations -/

/-- The globals `lastId` and `PI`, the state of the library, and the two
traces: the calls made into the library and the calls made to the Go
handlers, both in order. -/
structure World (σ : Type) where
  lastId : Int
  PI : ParserInstance
  lib : σ
  calls : List ExpatCall
  events : List GoCall

/-- The state at program start: the globals are zero-initialised. -/
def World.init {σ : Type} (lib : σ) : World σ :=
  { lastId := 0
    PI := { id := 0, parser := none, start_handler := some 0, end_handler := some 0 }
    lib := lib, calls := [], events := [] }

/-- The value an `int` holds after an arithmetic result `x` (two's complement,
32 bits). -/
def wrapInt32 (x : Int) : Int :=
  (x + 2 ^ 31) % 2 ^ 32 - 2 ^ 31

/-- The colon, the separator `Create` passes to `XML_ParserCreateNS`. -/
def colon : XML_Char := 58

/-- The branch at the top of `Create`: which constructor is called for the
`namespace` argument, what it leaves of the library state, the handle it
yields, and the call as it enters the trace. -/
def construct {σ : Type} (E : Expat σ) (lib : σ) (encoding : Option (List XML_Char))
    (namespace_ : Int) : σ × XML_Parser × ExpatCall :=
  if namespace_ ≠ 0 then
    let r := E.XML_ParserCreate lib encoding
    (r.1, r.2, .XML_ParserCreate encoding)
  else
    let r := E.XML_ParserCreateNS lib encoding colon
    (r.1, r.2, .XML_ParserCreateNS encoding colon)

/-- The operation `Create(encoding, namespace)`. -/
def Create {σ : Type} (E : Expat σ) (w : World σ) (encoding : Option (List XML_Char))
    (namespace_ : Int) : World σ × Int :=
  let c := construct E w.lib encoding namespace_
  let p := c.2.1
  let lib1 := E.XML_SetElementHandler c.1 p
  let lib2 := E.XML_SetCharacterDataHandler lib1 p
  let lib3 := E.XML_SetDefaultHandler lib2 p
  let pi : ParserInstance :=
    { id := w.lastId, parser := p, start_handler := none, end_handler := none }
  ({ lastId := wrapInt32 (w.lastId + 1)
     PI := pi
     lib := lib3
     calls := w.calls ++ [c.2.2, .XML_SetElementHandler p, .XML_SetCharacterDataHandler p,
       .XML_SetDefaultHandler p]
     events := w.events }, pi.id)

/-- The handler `Create` registered for each kind of callback, run against the
slot `PI`. -/
def dispatch (PI : ParserInstance) : Callback → GoCall
  | .startElement el attr => _handle_start_ PI el attr
  | .endElement el => _handle_end_ PI el
  | .characterData s len => _handle_char_data_ PI s len
  | .defaultData s len => _handle_default_ PI s len

/-- The operation `Feed(id, chunk, len, finish)`: `XML_Parse(PI.parser, chunk,
len, 1)`, the callbacks it invokes, and the value returned. -/
def Feed {σ : Type} (E : Expat σ) (w : World σ) (id : Int) (chunk : List XML_Char)
    (len : Int) (finish : Int) : World σ × Int :=
  let r := E.XML_Parse w.lib w.PI.parser chunk len 1
  let w1 : World σ :=
    { w with
      lib := r.lib
      calls := w.calls ++ [.XML_Parse w.PI.parser chunk len 1]
      events := w.events ++ r.fired.map (dispatch w.PI) }
  if r.status = .XML_STATUS_ERROR then (w1, E.XML_GetErrorCode w1.lib w1.PI.parser)
  else (w1, 0)

/-- The operation `GetError(id, code)`: a copy of
`XML_ErrorString(XML_GetErrorCode(PI.parser))`; `none` when the library has no
string for the code (`strlen(NULL)`). -/
def GetError {σ : Type} (E : Expat σ) (w : World σ) (id : Int) (code : Int) : Option Block :=
  match E.XML_ErrorString (E.XML_GetErrorCode w.lib w.PI.parser) with
  | some temp => some (strcpy (malloc (strlen temp + 1)) temp)
  | none => none

/-- The operation `GetCurrentLineNumber(id)`. -/
def GetCurrentLineNumber {σ : Type} (E : Expat σ) (w : World σ) (id : Int) : Int :=
  wrapInt32 (E.XML_GetCurrentLineNumber w.lib w.PI.parser)

/-- The operation `GetCurrentColumnNumber(id)`. -/
def GetCurrentColumnNumber {σ : Type} (E : Expat σ) (w : World σ) (id : Int) : Int :=
  wrapInt32 (E.XML_GetCurrentColumnNumber w.lib w.PI.parser)

/-- The operation `GetCurrentAttributeCount(id)`. -/
def GetCurrentAttributeCount {σ : Type} (E : Expat σ) (w : World σ) (id : Int) : Int :=
  E.XML_GetSpecifiedAttributeCount w.lib w.PI.parser

/-- The operation `SetHandlers(id, start, end)`. -/
def SetHandlers {σ : Type} (w : World σ) (id : Int) (start : Int) (end_ : Int) : World σ :=
  { w with PI := { w.PI with start_handler := some start, end_handler := some end_ } }

/-- The operation `Free(id)`: `XML_ParserFree(PI.parser)`; the slot keeps the
handle. -/
def Free {σ : Type} (E : Expat σ) (w : World σ) (id : Int) : World σ :=
  { w with
    lib := E.XML_ParserFree w.lib w.PI.parser
    calls := w.calls ++ [.XML_ParserFree w.PI.parser] }

/-! ## Sequences of operations -/

/-- A call of one of the exported operations. -/
inductive Op where
  | Create (encoding : Option (List XML_Char)) (namespace_ : Int)
  | Feed (id : Int) (chunk : List XML_Char) (len : Int) (finish : Int)
  | GetError (id : Int) (code : Int)
  | GetCurrentLineNumber (id : Int)
  | GetCurrentColumnNumber (id : Int)
  | GetCurrentAttributeCount (id : Int)
  | SetHandlers (id : Int) (start : Int) (end_ : Int)
  | Free (id : Int)
deriving DecidableEq, Repr

/-- Whether the call is a `Create`. -/
def Op.isCreate : Op → Bool
  | .Create _ _ => true
  | _ => false

/-- The state after one call. -/
def step {σ : Type} (E : Expat σ) (w : World σ) : Op → World σ
  | .Create encoding namespace_ => (Create E w encoding namespace_).1
  | .Feed id chunk len finish => (Feed E w id chunk len finish).1
  | .GetError _ _ => w
  | .GetCurrentLineNumber _ => w
  | .GetCurrentColumnNumber _ => w
  | .GetCurrentAttributeCount _ => w
  | .SetHandlers id start end_ => SetHandlers w id start end_
  | .Free id => Free E w id

/-- The state after a sequence of calls. -/
def run {σ : Type} (E : Expat σ) (w : World σ) (ops : List Op) : World σ :=
  ops.foldl (step E) w

/-- The ids the `Create` calls of a sequence return, in call order. -/
def createIds {σ : Type} (E : Expat σ) (w : World σ) : List Op → List Int
  | [] => []
  | .Create encoding namespace_ :: rest =>
      (Create E w encoding namespace_).2 ::
        createIds E (Create E w encoding namespace_).1 rest
  | op :: rest => createIds E (step E w op) rest

/-! ## A small stand-in library for concrete runs

The statements below hold for every library. Where a statement needs a
concrete run (a counterexample, a witness), the run uses this stand-in: it
hands out handles `1, 2, ...` while it has room, reports every non-empty chunk
as one character-data callback, and, like expat, refuses a handle that has
already been given its final chunk. -/

/-- The state of the stand-in: how many handles were made, how many more can
be, which handles have seen their final chunk, and the last error of each. -/
structure ToyLib where
  made : Nat
  room : Nat
  finished : List Nat
  errs : List (Nat × Int)
deriving DecidableEq, Repr

/-- The stand-in constructor: a fresh handle, or `NULL` when there is no room. -/
def ToyLib.create (lib : ToyLib) : ToyLib × XML_Parser :=
  if lib.room = 0 then (lib, none)
  else ({ lib with made := lib.made + 1, room := lib.room - 1 }, some (lib.made + 1))

/-- The stand-in `XML_Parse`. A `NULL` handle and a handle that already saw its
final chunk give `XML_STATUS_ERROR` (codes 41 and 36); otherwise a non-empty
chunk is reported as one character-data callback. -/
def ToyLib.parse (lib : ToyLib) (p : XML_Parser) (chunk : List XML_Char) (len : Int)
    (isFinal : Int) : ParseResult ToyLib :=
  match p with
  | none => { lib := lib, fired := [], status := .XML_STATUS_ERROR }
  | some h =>
    if lib.finished.contains h then
      { lib := { lib with errs := (h, 36) :: lib.errs }, fired := [],
        status := .XML_STATUS_ERROR }
    else
      { lib := if isFinal ≠ 0 then { lib with finished := h :: lib.finished } else lib
        fired := if len.toNat = 0 then [] else [.characterData chunk len.toNat]
        status := .XML_STATUS_OK }

/-- The stand-in `XML_GetErrorCode`. -/
def ToyLib.errorCode (lib : ToyLib) : XML_Parser → Int
  | none => 41
  | some h => (lib.errs.lookup h).getD 0

/-- The stand-in library. -/
def toyExpat : Expat ToyLib where
  XML_ParserCreate lib _ := lib.create
  XML_ParserCreateNS lib _ _ := lib.create
  XML_SetElementHandler lib _ := lib
  XML_SetCharacterDataHandler lib _ := lib
  XML_SetDefaultHandler lib _ := lib
  XML_Parse := ToyLib.parse
  XML_GetErrorCode := ToyLib.errorCode
  XML_ErrorString code :=
    if code = 36 then some [102, 105, 110, 105, 115, 104, 101, 100, 0]
    else if code = 41 then some [105, 110, 118, 97, 108, 105, 100, 0]
    else none
  XML_GetCurrentLineNumber _ _ := 1
  XML_GetCurrentColumnNumber _ _ := 0
  XML_GetSpecifiedAttributeCount _ _ := 0
  XML_ParserFree lib _ := lib

/-- The program start over the stand-in, with room for `room` tokenizers. -/
def toyStart (room : Nat) : World ToyLib :=
  World.init { made := 0, room := room, finished := [], errs := [] }

/-- The stand-in after one `Create` (which returned id 0, handle 1). -/
def toyOne : World ToyLib :=
  (Create toyExpat (toyStart 2) none 0).1

/-- The errors the second stand-in reports. -/
inductive MiniError where
  | badSyntax
  | noElements
  | finished
deriving DecidableEq, Repr

/-- The `enum XML_Error` value of an error: `XML_ERROR_[115, 121, 110, 116, 97, 120, 32, 101, 114, 114, 111, 114, 0]`,
`XML_ERROR_NO_ELEMENTS`, `XML_ERROR_[112, 97, 114, 115, 105, 110, 103, 32, 102, 105, 110, 105, 115, 104, 101, 100, 0]`. -/
def MiniError.code : MiniError → Int
  | .badSyntax => 2
  | .noElements => 3
  | .finished => 36

/-- The state of the second stand-in: how many handles were made, which
handles finished their document, and the error each failed handle keeps. -/
structure MiniLib where
  made : Nat
  finished : List Nat
  errs : List (Nat × MiniError)
deriving DecidableEq, Repr

/-- A lower-case letter. -/
def isNameChar (c : XML_Char) : Bool :=
  decide (97 ≤ c) && decide (c ≤ 122)

/-- The element name of a document that is one empty-element tag, `<` name
`/>` with a name of lower-case letters; `none` for any other text. -/
def emptyElementName : List XML_Char → Option (List XML_Char)
  | [] => none
  | c :: rest =>
    if c = 60 ∧ rest.takeWhile isNameChar ≠ []
        ∧ rest.drop (rest.takeWhile isNameChar).length = [47, 62] then
      some (rest.takeWhile isNameChar)
    else none

/-- The second stand-in's `XML_Parse`. -/
def MiniLib.parse (lib : MiniLib) (p : XML_Parser) (chunk : List XML_Char) (len : Int)
    (isFinal : Int) : ParseResult MiniLib :=
  match p with
  | none => { lib := lib, fired := [], status := .XML_STATUS_ERROR }
  | some h =>
    match lib.errs.lookup h with
    | some _ => { lib := lib, fired := [], status := .XML_STATUS_ERROR }
    | none =>
      if lib.finished.contains h then
        { lib := { lib with errs := (h, .finished) :: lib.errs }, fired := [],
          status := .XML_STATUS_ERROR }
      else if isFinal = 0 then
        { lib := lib, fired := [], status := .XML_STATUS_OK }
      else if chunk.take len.toNat = [] then
        { lib := { lib with errs := (h, .noElements) :: lib.errs }, fired := [],
          status := .XML_STATUS_ERROR }
      else
        match emptyElementName (chunk.take len.toNat) with
        | some name =>
          { lib := { lib with finished := h :: lib.finished }
            fired := [.startElement (name ++ [0]) [none], .endElement (name ++ [0])]
            status := .XML_STATUS_OK }
        | none =>
          { lib := { lib with errs := (h, .badSyntax) :: lib.errs }, fired := [],
            status := .XML_STATUS_ERROR }

/-- The second stand-in's `XML_GetErrorCode`: 41 (`XML_ERROR_[105, 110, 118, 97, 108, 105, 100, 32, 97, 114, 103, 117, 109, 101, 110, 116, 0]_ARGUMENT`)
for `NULL`, the kept error of a failed handle, 0 otherwise. -/
def MiniLib.errorCode (lib : MiniLib) : XML_Parser → Int
  | none => 41
  | some h =>
    match lib.errs.lookup h with
    | some e => e.code
    | none => 0

/-- A sequence of calls over the stand-in with three `Create` calls among
other operations. -/
def toyOps : List Op :=
  [Op.Create none 0, Op.Feed 0 [104, 105, 0] 2 1, Op.Create none 1, Op.GetError 0 0,
   Op.SetHandlers 1 5 6, Op.Free 0, Op.Create none 0, Op.GetCurrentLineNumber 2]

/-- The number of `Create` calls in a sequence. -/
def numCreates (ops : List Op) : Nat :=
  (ops.filter Op.isCreate).length

/-! ## Heap blocks: what `strcpy` leaves in a fresh block -/

theorem malloc_eq_filled (n : Nat) : malloc n = Block.filled n [] [] := by
  simp [malloc, Block.filled]

theorem set_after_written (pre : List XML_Char) (n : Nat) (c : XML_Char) :
    (pre.map some ++ List.replicate (n + 1) (none : Option XML_Char)).set pre.length (some c)
      = (pre ++ [c]).map some ++ List.replicate n none := by
  induction pre with
  | nil => simp [List.replicate_succ]
  | cons a pre ih => simpa using ih

theorem store_filled_inside (cap : Nat) (pre : List XML_Char) (sp : List (Nat × XML_Char))
    (c : XML_Char) (h : pre.length < cap) :
    (Block.filled cap pre sp).store pre.length c = Block.filled cap (pre ++ [c]) sp := by
  obtain ⟨n, hn⟩ : ∃ n, cap - pre.length = n + 1 := ⟨cap - pre.length - 1, by omega⟩
  have hn2 : cap - (pre.length + 1) = n := by omega
  unfold Block.store Block.filled
  simp only [h, if_true, List.length_append, List.length_singleton, hn, hn2, set_after_written]

theorem store_filled_outside (cap : Nat) (pre : List XML_Char) (sp : List (Nat × XML_Char))
    (i : Nat) (c : XML_Char) (h : cap ≤ i) :
    (Block.filled cap pre sp).store i c = Block.filled cap pre (sp ++ [(i, c)]) := by
  have : ¬ i < cap := by omega
  simp [Block.store, Block.filled, this]

/-- Copying a terminated string into a block that has room for it and its
terminator: the block then starts with the string and a 0, nothing is written
outside. -/
theorem strcpyFrom_fits (cap : Nat) (t rest : List XML_Char) (ht : ∀ c ∈ t, c ≠ 0) :
    ∀ (pre : List XML_Char) (sp : List (Nat × XML_Char)), pre.length + t.length < cap →
      strcpyFrom (Block.filled cap pre sp) pre.length (t ++ 0 :: rest)
        = Block.filled cap (pre ++ t ++ [0]) sp := by
  induction t with
  | nil =>
    intro pre sp h
    simp [strcpyFrom]
    exact store_filled_inside cap pre sp 0 (by simpa using h)
  | cons c t ih =>
    intro pre sp h
    have hc : c ≠ 0 := ht c (by simp)
    have ht2 : ∀ d ∈ t, d ≠ 0 := fun d hd => ht d (by simp [hd])
    simp only [List.cons_append, strcpyFrom, hc, if_false]
    rw [store_filled_inside cap pre sp c (by simp at h; omega)]
    have := ih ht2 (pre ++ [c]) sp (by simp at h ⊢; omega)
    simpa using this

/-- Copying a terminated string into a block with room for the string but not
for its terminator: the 0 is written at index `cap`, outside the block. -/
theorem strcpyFrom_one_short (cap : Nat) (t rest : List XML_Char) (ht : ∀ c ∈ t, c ≠ 0) :
    ∀ (pre : List XML_Char) (sp : List (Nat × XML_Char)), pre.length + t.length = cap →
      strcpyFrom (Block.filled cap pre sp) pre.length (t ++ 0 :: rest)
        = Block.filled cap (pre ++ t) (sp ++ [(cap, 0)]) := by
  induction t with
  | nil =>
    intro pre sp h
    simp [strcpyFrom]
    have hp : pre.length = cap := by simpa using h
    rw [store_filled_outside cap pre sp pre.length 0 (by omega), hp]
  | cons c t ih =>
    intro pre sp h
    have hc : c ≠ 0 := ht c (by simp)
    have ht2 : ∀ d ∈ t, d ≠ 0 := fun d hd => ht d (by simp [hd])
    simp only [List.cons_append, strcpyFrom, hc, if_false]
    rw [store_filled_inside cap pre sp c (by simp at h; omega)]
    have := ih ht2 (pre ++ [c]) sp (by simp at h ⊢; omega)
    simpa using this

theorem strlen_terminated (t rest : List XML_Char) (ht : ∀ c ∈ t, c ≠ 0) :
    strlen (t ++ 0 :: rest) = t.length := by
  induction t with
  | nil => simp [strlen]
  | cons c t ih =>
    have hc : c ≠ 0 := ht c (by simp)
    have ht2 : ∀ d ∈ t, d ≠ 0 := fun d hd => ht d (by simp [hd])
    simp [strlen, hc, ih ht2]

/-- The copy `malloc(strlen(s)+1)` then `strcpy` of a terminated string holds
the string and its terminator, with nothing written outside. -/
theorem strcpy_with_room (t rest : List XML_Char) (ht : ∀ c ∈ t, c ≠ 0) :
    strcpy (malloc (strlen (t ++ 0 :: rest) + 1)) (t ++ 0 :: rest)
      = { cap := t.length + 1, cells := (t ++ [0]).map some, spill := [] } := by
  rw [strlen_terminated t rest ht, malloc_eq_filled, strcpy]
  have := strcpyFrom_fits (t.length + 1) t rest ht [] [] (by simp)
  simp only [List.length_nil, List.nil_append] at this
  rw [this]
  simp [Block.filled]

/-- The copy `malloc(strlen(s))` then `strcpy` of a terminated string holds the
string without its terminator; the terminator is written one past the end. -/
theorem strcpy_without_room (t rest : List XML_Char) (ht : ∀ c ∈ t, c ≠ 0) :
    strcpy (malloc (strlen (t ++ 0 :: rest))) (t ++ 0 :: rest)
      = { cap := t.length, cells := t.map some, spill := [(t.length, 0)] } := by
  rw [strlen_terminated t rest ht, malloc_eq_filled, strcpy]
  have := strcpyFrom_one_short t.length t rest ht [] [] (by simp)
  simp only [List.length_nil, List.nil_append] at this
  rw [this]
  simp [Block.filled]

/-- The text copy when the span has a zero byte at position `t.length`, before
its reported length: the block holds the bytes up to and including that zero,
and its other cells are never written. -/
theorem char_data_copy_with_embedded_zero (PI : ParserInstance) (t rest : List XML_Char)
    (len : Nat) (ht : ∀ c ∈ t, c ≠ 0) (hlen : t.length < len) :
    _handle_char_data_ PI (t ++ 0 :: rest) len
      = GoCall.GCharDataHandler PI.id
          { cap := len
            cells := (t ++ [0]).map some ++ List.replicate (len - (t.length + 1)) none
            spill := [] } len := by
  unfold _handle_char_data_
  rw [sizeof_XML_Char, Nat.mul_one, malloc_eq_filled, strcpy]
  have := strcpyFrom_fits len t rest ht [] [] (by simpa using hlen)
  simp only [List.length_nil, List.nil_append] at this
  rw [this]
  simp [Block.filled]

/-! ## The attribute loop -/

theorem countAttrs_terminated (a : List (List XML_Char)) (rest : List (Option (List XML_Char))) :
    countAttrs (a.map some ++ none :: rest) = a.length := by
  induction a with
  | nil => simp [countAttrs]
  | cons s a ih => simp [countAttrs, ih]

/-- The copy loop after `n` of its `count` iterations: the first `n` cells are
written, the others are not. -/
theorem copyLoop_steps (attr : List (Option (List XML_Char))) (count : Nat) :
    ∀ n, n ≤ count →
      (List.range n).foldl (fun arr i => arr.set i (copyAttr (attr.getD i none)))
          (List.replicate (count + 1) PtrCell.indeterminate)
        = (List.range n).map (fun i => copyAttr (attr.getD i none))
            ++ List.replicate (count + 1 - n) PtrCell.indeterminate := by
  intro n
  induction n with
  | zero => intro _; simp
  | succ n ih =>
    intro h
    rw [List.range_succ, List.foldl_append, ih (by omega)]
    obtain ⟨m, hm⟩ : ∃ m, count + 1 - n = m + 1 := ⟨count - n, by omega⟩
    have hm2 : count + 1 - (n + 1) = m := by omega
    simp only [List.foldl_cons, List.foldl_nil, hm, hm2, List.map_append, List.map_cons,
      List.map_nil, List.append_assoc]
    rw [List.set_append_right _ _ (by simp)]
    simp [List.replicate_succ]

/-- The array `_handle_start_` builds: the copies in order, then one cell that
is never written. -/
theorem copyAttrs_eq (attr : List (Option (List XML_Char))) (count : Nat) :
    copyAttrs attr count
      = (List.range count).map (fun i => copyAttr (attr.getD i none))
          ++ [PtrCell.indeterminate] := by
  unfold copyAttrs
  rw [copyLoop_steps attr count count (le_refl _)]
  simp

theorem copyAttrs_terminated (a : List (List XML_Char)) (rest : List (Option (List XML_Char))) :
    copyAttrs (a.map some ++ none :: rest) (countAttrs (a.map some ++ none :: rest))
      = a.map (fun s => PtrCell.ptr (strcpy (malloc (strlen s * sizeof_XML_Char)) s))
          ++ [PtrCell.indeterminate] := by
  rw [copyAttrs_eq, countAttrs_terminated]
  congr 1
  apply List.ext_getElem
  · simp
  · intro i h1 h2
    simp at h1
    simp [List.getD, List.getElem?_append_left, h1, copyAttr]

theorem store_cap (dst : Block) (i : Nat) (c : XML_Char) : (dst.store i c).cap = dst.cap := by
  unfold Block.store
  split <;> rfl

theorem strcpyFrom_cap (src : List XML_Char) :
    ∀ (dst : Block) (i : Nat), (strcpyFrom dst i src).cap = dst.cap := by
  induction src with
  | nil => intro dst i; rfl
  | cons c rest ih =>
    intro dst i
    unfold strcpyFrom
    split
    · exact store_cap dst i 0
    · rw [ih, store_cap]

theorem strcpy_cap (dst : Block) (src : List XML_Char) : (strcpy dst src).cap = dst.cap :=
  strcpyFrom_cap src dst 0

/-! ## The callbacks: what reaches the Go handlers -/

/-- C3 (the code does otherwise). The span "ab\0cd" with reported length 5:
`strcpy` stops at the zero byte, so the block given to `GCharDataHandler` and
to `GDefaultHandler` holds `a`, `b`, `0` and two cells that were never
written, not the five bytes. For a span "abcde" with no zero byte, followed in
memory by `</a>` and a 0, the copy runs on past the span and writes five
characters outside the block of 5. -/
theorem C3_text_copy_stops_at_zero_byte (PI : ParserInstance) :
    _handle_char_data_ PI [97, 98, 0, 99, 100] 5
        = GoCall.GCharDataHandler PI.id
            { cap := 5, cells := [some 97, some 98, some 0, none, none], spill := [] } 5
    ∧ _handle_default_ PI [97, 98, 0, 99, 100] 5
        = GoCall.GDefaultHandler PI.id
            { cap := 5, cells := [some 97, some 98, some 0, none, none], spill := [] } 5
    ∧ _handle_char_data_ PI [97, 98, 99, 100, 101, 60, 47, 97, 62, 0] 5
        = GoCall.GCharDataHandler PI.id
            { cap := 5, cells := [some 97, some 98, some 99, some 100, some 101],
              spill := [(5, 60), (6, 47), (7, 97), (8, 62), (9, 0)] } 5 := by
  refine ⟨?_, ?_, ?_⟩ <;> rfl

/-- C4 (the code does otherwise). For every attribute array `a_0 .. a_(k-1)`
followed by `NULL`, the array given to `GStartElementHandler` has `k+1` cells:
the first `k` point to the copies, in order, and cell `k` is never written
(it is not `NULL`). Each copy is made into a block of `strlen` characters.
For `<a x="1">`: the tag block holds `a` and its terminator; the two
attribute blocks hold `x` and `1`, each with its terminator written outside
the block; the last cell is indeterminate. -/
theorem C4_attribute_array_end_marker_not_written (PI : ParserInstance) (el : List XML_Char)
    (a : List (List XML_Char)) (rest : List (Option (List XML_Char))) :
    _handle_start_ PI el (a.map some ++ none :: rest)
        = GoCall.GStartElementHandler PI.id
            (strcpy (malloc ((strlen el + 1) * sizeof_XML_Char)) el)
            (a.map (fun s => PtrCell.ptr (strcpy (malloc (strlen s * sizeof_XML_Char)) s))
              ++ [PtrCell.indeterminate])
    ∧ _handle_start_ PI [97, 0] [some [120, 0], some [49, 0], none]
        = GoCall.GStartElementHandler PI.id
            { cap := 2, cells := [some 97, some 0], spill := [] }
            [PtrCell.ptr { cap := 1, cells := [some 120], spill := [(1, 0)] },
             PtrCell.ptr { cap := 1, cells := [some 49], spill := [(1, 0)] },
             PtrCell.indeterminate]
    ∧ PtrCell.indeterminate ≠ PtrCell.null := by
  refine ⟨?_, rfl, by decide⟩
  unfold _handle_start_
  simp only [copyAttrs_terminated]

/-- C10 (the code does otherwise). The tag block of `_handle_start_` and of
`_handle_end_` has `strlen + 1` cells, but the block of every attribute string
has only `strlen` cells. For `<a x="1">` the terminators of `x` and of `1`
are written at index 1 of blocks of capacity 1. -/
theorem C10_attribute_block_one_short :
    (∀ (PI : ParserInstance) (el : List XML_Char),
        ∃ tag, _handle_end_ PI el = GoCall.GEndElementHandler PI.id tag
          ∧ tag.cap = strlen el + 1)
    ∧ (∀ (PI : ParserInstance) (el : List XML_Char) (attr : List (Option (List XML_Char))),
        ∃ tag arr, _handle_start_ PI el attr = GoCall.GStartElementHandler PI.id tag arr
          ∧ tag.cap = strlen el + 1)
    ∧ (∀ s : List XML_Char, ∃ b, copyAttr (some s) = PtrCell.ptr b ∧ b.cap = strlen s)
    ∧ copyAttrs [some [120, 0], some [49, 0], none] 2
        = [PtrCell.ptr { cap := 1, cells := [some 120], spill := [(1, 0)] },
           PtrCell.ptr { cap := 1, cells := [some 49], spill := [(1, 0)] },
           PtrCell.indeterminate] := by
  refine ⟨?_, ?_, ?_, rfl⟩
  · intro PI el
    exact ⟨_, rfl, by simp [strcpy_cap, malloc]⟩
  · intro PI el attr
    exact ⟨_, _, rfl, by simp [strcpy_cap, malloc, sizeof_XML_Char]⟩
  · intro s
    exact ⟨_, rfl, by simp [strcpy_cap, malloc, sizeof_XML_Char]⟩

/-! ## Facts about single operations -/

theorem wrapInt32_of_range (x : Int) (hlo : -2 ^ 31 ≤ x) (hhi : x < 2 ^ 31) :
    wrapInt32 x = x := by
  unfold wrapInt32
  omega

theorem Feed_calls {σ : Type} (E : Expat σ) (w : World σ) (id : Int) (chunk : List XML_Char)
    (len finish : Int) :
    (Feed E w id chunk len finish).1.calls
      = w.calls ++ [ExpatCall.XML_Parse w.PI.parser chunk len 1] := by
  by_cases h : (E.XML_Parse w.lib w.PI.parser chunk len 1).status = XML_Status.XML_STATUS_ERROR <;>
    simp [Feed, h]

theorem Feed_lastId {σ : Type} (E : Expat σ) (w : World σ) (id : Int) (chunk : List XML_Char)
    (len finish : Int) : (Feed E w id chunk len finish).1.lastId = w.lastId := by
  by_cases h : (E.XML_Parse w.lib w.PI.parser chunk len 1).status = XML_Status.XML_STATUS_ERROR <;>
    simp [Feed, h]

theorem step_lastId {σ : Type} (E : Expat σ) (w : World σ) (op : Op)
    (h : op.isCreate = false) : (step E w op).lastId = w.lastId := by
  cases op with
  | Create encoding namespace_ => simp [Op.isCreate] at h
  | Feed id chunk len finish => exact Feed_lastId E w id chunk len finish
  | GetError id code => rfl
  | GetCurrentLineNumber id => rfl
  | GetCurrentColumnNumber id => rfl
  | GetCurrentAttributeCount id => rfl
  | SetHandlers id start end_ => rfl
  | Free id => rfl

/-- The ids returned along a sequence of calls, and the counter after it. -/
theorem createIds_run {σ : Type} (E : Expat σ) (ops : List Op) :
    ∀ w : World σ, -2 ^ 31 ≤ w.lastId → w.lastId + numCreates ops < 2 ^ 31 →
      createIds E w ops = (List.range (numCreates ops)).map (fun k : Nat => w.lastId + k)
        ∧ (run E w ops).lastId = w.lastId + numCreates ops := by
  induction ops with
  | nil => intro w _ _; simp [createIds, run, numCreates]
  | cons op rest ih =>
    intro w hlo hhi
    by_cases hc : op.isCreate = true
    · obtain ⟨encoding, namespace_, rfl⟩ : ∃ e n, op = Op.Create e n := by
        cases op <;> simp [Op.isCreate] at hc
        exact ⟨_, _, rfl⟩
      have hn : numCreates (Op.Create encoding namespace_ :: rest) = numCreates rest + 1 := by
        simp [numCreates, Op.isCreate]
      rw [hn] at hhi ⊢
      have hnext : (Create E w encoding namespace_).1.lastId = w.lastId + 1 := by
        show wrapInt32 (w.lastId + 1) = w.lastId + 1
        exact wrapInt32_of_range _ (by omega) (by push_cast at hhi; omega)
      obtain ⟨h1, h2⟩ := ih (Create E w encoding namespace_).1 (by rw [hnext]; omega)
        (by rw [hnext]; push_cast at hhi; omega)
      refine ⟨?_, ?_⟩
      · show (Create E w encoding namespace_).2
            :: createIds E (Create E w encoding namespace_).1 rest = _
        rw [h1, hnext, List.range_succ_eq_map]
        simp only [List.map_cons, List.map_map]
        congr 1
        · show w.lastId = w.lastId + ((0 : Nat) : Int)
          simp
        · apply List.map_congr_left
          intro k _
          simp only [Function.comp]
          push_cast
          ring
      · show (run E (Create E w encoding namespace_).1 rest).lastId = _
        rw [h2, hnext]
        push_cast
        ring
    · have hc2 : op.isCreate = false := by simpa using hc
      have hn : numCreates (op :: rest) = numCreates rest := by
        simp [numCreates, hc2]
      rw [hn] at hhi ⊢
      have hstep := step_lastId E w op hc2
      obtain ⟨h1, h2⟩ := ih (step E w op) (by rw [hstep]; exact hlo) (by rw [hstep]; exact hhi)
      refine ⟨?_, ?_⟩
      · have : createIds E w (op :: rest) = createIds E (step E w op) rest := by
          cases op <;> first | rfl | (simp [Op.isCreate] at hc2)
        rw [this, h1, hstep]
      · show (run E (step E w op) rest).lastId = _
        rw [h2, hstep]

/-- C5 (the code does otherwise). `Feed` never reads `finish`: the call it
makes is `XML_Parse(PI.parser, chunk, len, 1)` whatever the caller passes, so
a chunk fed with `finish = 0` is given to the tokenizer as the end of the
document. Over the stand-in library, which like expat refuses a handle that
has had its final chunk: `Feed(0, "<a>", finish = 0)` returns 0, the following
`Feed(0, "</a>", finish = 1)` returns the error code 36, while one
`Feed(0, "<a></a>", finish = 1)` on a fresh instance returns 0. -/
theorem C5_feed_passes_final_flag_one {σ : Type} (E : Expat σ) (w : World σ) (id : Int)
    (chunk : List XML_Char) (len finish : Int) :
    Feed E w id chunk len finish = Feed E w id chunk len 1
    ∧ (Feed E w id chunk len finish).1.calls
        = w.calls ++ [ExpatCall.XML_Parse w.PI.parser chunk len 1]
    ∧ (Feed toyExpat toyOne 0 [60, 97, 62] 3 0).1.calls
        = toyOne.calls ++ [ExpatCall.XML_Parse (some 1) [60, 97, 62] 3 1]
    ∧ (Feed toyExpat toyOne 0 [60, 97, 62] 3 0).2 = 0
    ∧ (Feed toyExpat (Feed toyExpat toyOne 0 [60, 97, 62] 3 0).1 0 [60, 47, 97, 62] 4 1).2 = 36
    ∧ (Feed toyExpat toyOne 0 [60, 97, 62, 60, 47, 97, 62] 7 1).2 = 0 := by
  refine ⟨rfl, Feed_calls E w id chunk len finish, ?_, ?_, ?_, ?_⟩ <;> decide

/-- C6 (the code does otherwise). `Create` tests `namespace` the other way
round: a nonzero `namespace` argument calls `XML_ParserCreate(encoding)`, the
constructor without namespace processing, and `namespace = 0` calls
`XML_ParserCreateNS(encoding, ':')`. The handle stored in the slot is the one
that constructor returned. -/
theorem C6_create_constructor_choice_is_swapped {σ : Type} (E : Expat σ) (w : World σ)
    (encoding : Option (List XML_Char)) :
    (∀ namespace_ : Int, namespace_ ≠ 0 →
        (Create E w encoding namespace_).1.calls
            = w.calls ++ [ExpatCall.XML_ParserCreate encoding,
                ExpatCall.XML_SetElementHandler (E.XML_ParserCreate w.lib encoding).2,
                ExpatCall.XML_SetCharacterDataHandler (E.XML_ParserCreate w.lib encoding).2,
                ExpatCall.XML_SetDefaultHandler (E.XML_ParserCreate w.lib encoding).2]
        ∧ (Create E w encoding namespace_).1.PI.parser = (E.XML_ParserCreate w.lib encoding).2)
    ∧ (Create E w encoding 0).1.calls
        = w.calls ++ [ExpatCall.XML_ParserCreateNS encoding 58,
            ExpatCall.XML_SetElementHandler (E.XML_ParserCreateNS w.lib encoding 58).2,
            ExpatCall.XML_SetCharacterDataHandler (E.XML_ParserCreateNS w.lib encoding 58).2,
            ExpatCall.XML_SetDefaultHandler (E.XML_ParserCreateNS w.lib encoding 58).2]
    ∧ (Create E w encoding 0).1.PI.parser = (E.XML_ParserCreateNS w.lib encoding 58).2
    ∧ (Create E w encoding 1).1.calls
        = w.calls ++ [ExpatCall.XML_ParserCreate encoding,
            ExpatCall.XML_SetElementHandler (E.XML_ParserCreate w.lib encoding).2,
            ExpatCall.XML_SetCharacterDataHandler (E.XML_ParserCreate w.lib encoding).2,
            ExpatCall.XML_SetDefaultHandler (E.XML_ParserCreate w.lib encoding).2] := by
  refine ⟨?_, ?_, ?_, ?_⟩
  · intro namespace_ h
    simp [Create, construct, h]
  · simp [Create, construct, colon]
  · simp [Create, construct, colon]
  · simp [Create, construct]

/-- C8. Along every sequence of operations, as long as the counter stays
within the range of a C `int`: the ids the `Create` calls return are the
counter's value at the start, then that plus 1, plus 2, and so on (so they are
distinct and strictly increasing), and the counter ends that many higher.
Each `Create` returns the counter's value before the call and leaves it one
higher; no other operation changes it. -/
theorem C8_create_ids_count_up {σ : Type} (E : Expat σ) (w : World σ) (ops : List Op)
    (hlo : -2 ^ 31 ≤ w.lastId) (hhi : w.lastId + numCreates ops < 2 ^ 31) :
    createIds E w ops = (List.range (numCreates ops)).map (fun k : Nat => w.lastId + k)
    ∧ (run E w ops).lastId = w.lastId + numCreates ops
    ∧ (createIds E w ops).Pairwise (fun a b => a < b)
    ∧ (∀ (v : World σ) (encoding : Option (List XML_Char)) (namespace_ : Int),
        (Create E v encoding namespace_).2 = v.lastId
        ∧ (-2 ^ 31 ≤ v.lastId → v.lastId + 1 < 2 ^ 31 →
            (Create E v encoding namespace_).1.lastId = v.lastId + 1))
    ∧ (∀ (v : World σ) (op : Op), op.isCreate = false → (step E v op).lastId = v.lastId) := by
  obtain ⟨h1, h2⟩ := createIds_run E ops w hlo hhi
  refine ⟨h1, h2, ?_, ?_, ?_⟩
  · rw [h1, List.pairwise_map]
    exact (List.pairwise_lt_range _).imp (fun h => by omega)
  · intro v encoding namespace_
    refine ⟨rfl, fun h3 h4 => ?_⟩
    show wrapInt32 (v.lastId + 1) = v.lastId + 1
    exact wrapInt32_of_range _ (by omega) h4
  · intro v op h
    exact step_lastId E v op h

/-- C8 at a concrete run: three `Create` calls among other operations, from
the program start over the stand-in library, return 0, 1 and 2. -/
theorem C8_create_ids_count_up_witness :
    (-2 ^ 31 ≤ (toyStart 3).lastId ∧ (toyStart 3).lastId + numCreates toyOps < 2 ^ 31)
    ∧ createIds toyExpat (toyStart 3) toyOps = [0, 1, 2]
    ∧ createIds toyExpat (toyStart 3) toyOps
        = (List.range (numCreates toyOps)).map (fun k : Nat => (toyStart 3).lastId + k)
    ∧ (run toyExpat (toyStart 3) toyOps).lastId = 3 :=
  ⟨⟨by decide, by decide⟩, by decide,
    (C8_create_ids_count_up toyExpat (toyStart 3) toyOps (by decide) (by decide)).1,
    by decide⟩

/-- C9 (the code does otherwise). `Create` never tests the handle the
constructor returns. Whatever it is, `Create` registers the three handlers on
it, stores it in the slot under the counter's value, and returns that value.
Over the stand-in library with no room for a tokenizer the constructor
returns `NULL`; `Create` then calls the three registration functions with
`NULL`, overwrites the slot with `{id = 0, parser = NULL}`, raises the counter
from 0 to 1 and returns 0, which is what the first successful `Create`
returns. -/
theorem C9_create_does_not_test_handle :
    (∀ (σ : Type) (E : Expat σ) (w : World σ) (encoding : Option (List XML_Char))
        (namespace_ : Int),
        (Create E w encoding namespace_).2 = w.lastId
        ∧ (Create E w encoding namespace_).1.lastId = wrapInt32 (w.lastId + 1)
        ∧ (Create E w encoding namespace_).1.PI
            = { id := w.lastId, parser := (construct E w.lib encoding namespace_).2.1,
                start_handler := none, end_handler := none }
        ∧ (Create E w encoding namespace_).1.calls
            = w.calls ++ [(construct E w.lib encoding namespace_).2.2,
                ExpatCall.XML_SetElementHandler (construct E w.lib encoding namespace_).2.1,
                ExpatCall.XML_SetCharacterDataHandler
                  (construct E w.lib encoding namespace_).2.1,
                ExpatCall.XML_SetDefaultHandler (construct E w.lib encoding namespace_).2.1])
    ∧ (toyExpat.XML_ParserCreateNS (toyStart 0).lib none 58).2 = none
    ∧ (Create toyExpat (toyStart 0) none 0).2 = 0
    ∧ (Create toyExpat (toyStart 2) none 0).2 = 0
    ∧ (Create toyExpat (toyStart 0) none 0).1.lastId = 1
    ∧ (Create toyExpat (toyStart 0) none 0).1.PI
        = { id := 0, parser := none, start_handler := none, end_handler := none }
    ∧ (Create toyExpat (toyStart 0) none 0).1.calls
        = [ExpatCall.XML_ParserCreateNS none 58, ExpatCall.XML_SetElementHandler none,
           ExpatCall.XML_SetCharacterDataHandler none, ExpatCall.XML_SetDefaultHandler none] := by
  refine ⟨?_, ?_, ?_, ?_, ?_, ?_, ?_⟩
  · intro σ E w encoding namespace_
    exact ⟨rfl, rfl, rfl, rfl⟩
  all_goals decide

end ExpatBridge
